import Mathlib

/-!
Verification of the article-extraction and caching pipeline of
`app.py` (medical blog generator).

The Python source is shallowly embedded: every helper of the
`MedicalBlogGenerator` workflow class becomes a Lean function.  String
primitives of Python (`str.strip`, `str.split(sep)`, `str.split()`,
`str.split(':', 1)`, `str.lower`, `str.startswith`, `sep.join`) are
re-implemented structurally over `List Char` so that all definitions
compute by kernel reduction.  The external collaborators
(`search_agent.run`, `content_agent.run`) are modelled as oracles
indexed by the number of calls made so far, returning `Except` values
(an `error` models a raised Python exception).  `datetime.now()` is
modelled by a `today : String` parameter.  The session-state dictionary
`session_state["medical_blog_posts"]` is modelled as an association
list with Python-dict get/put semantics.
-/

/-- Python whitespace characters recognised by `str.strip()` / `str.split()`. -/
def isPyWs (c : Char) : Bool :=
  c == ' ' || c == '\t' || c == '\n' || c == '\r' || c == '\x0b' || c == '\x0c'

/-- `str.strip()` on the character list: drop whitespace from both ends. -/
def pyStripList (cs : List Char) : List Char :=
  ((cs.dropWhile isPyWs).reverse.dropWhile isPyWs).reverse

/-- Python `s.strip()`. -/
def pyStrip (s : String) : String := String.mk (pyStripList s.data)

/-- Auxiliary for Python `s.split('---')`: left-to-right, non-overlapping. -/
def splitDashesAux : List Char → List Char → List (List Char)
  | [], acc => [acc.reverse]
  | '-' :: '-' :: '-' :: cs, acc => acc.reverse :: splitDashesAux cs []
  | c :: cs, acc => splitDashesAux cs (c :: acc)

/-- Python `s.split('---')`. -/
def pySplitDashes (s : String) : List String :=
  (splitDashesAux s.data []).map String.mk

/-- Auxiliary for Python `s.split('\n')`. -/
def splitNlAux : List Char → List Char → List (List Char)
  | [], acc => [acc.reverse]
  | '\n' :: cs, acc => acc.reverse :: splitNlAux cs []
  | c :: cs, acc => splitNlAux cs (c :: acc)

/-- Python `s.split('\n')`. -/
def pySplitNl (s : String) : List String :=
  (splitNlAux s.data []).map String.mk

/-- Auxiliary for Python `s.split()` (no argument): maximal runs of
non-whitespace characters, no empty tokens. -/
def wsSplitAux : List Char → List Char → List String
  | [], acc => if acc.isEmpty then [] else [String.mk acc.reverse]
  | c :: cs, acc =>
    if isPyWs c then
      if acc.isEmpty then wsSplitAux cs []
      else String.mk acc.reverse :: wsSplitAux cs []
    else wsSplitAux cs (c :: acc)

/-- Python `s.split()` with no argument (whitespace tokenisation). -/
def pySplitWs (s : String) : List String := wsSplitAux s.data []

/-- Python `s.split(':', 1)`: the part before the first `:` and the part
after it (the value may itself contain further colons). -/
def splitFirstColon (s : String) : String × String :=
  (String.mk (s.data.takeWhile (fun c => c != ':')),
   String.mk ((s.data.dropWhile (fun c => c != ':')).drop 1))

/-- Python `s.lower()` (ASCII case folding, which is exact for the
recognised keys, none of which contains a character with a non-ASCII
upper-case form). -/
def pyLower (s : String) : String := String.mk (s.data.map Char.toLower)

/-- Python `s.startswith(pre)`. -/
def pyStartsWith (s pre : String) : Bool := pre.data.isPrefixOf s.data

/-- Python `sep.join(l)`. -/
def pyJoin (sep : String) : List String → String
  | [] => ""
  | [s] => s
  | s :: rest => s ++ sep ++ pyJoin sep rest

/-- Python-dict membership test for an association list. -/
def dictGet {α : Type} (d : List (String × α)) (k : String) : Option α :=
  (d.find? (fun p => p.1 == k)).map (fun p => p.2)

/-- Python-dict assignment `d[k] = v` for an association list: overwrite
in place when the key exists, otherwise append. -/
def dictPut {α : Type} (d : List (String × α)) (k : String) (v : α) :
    List (String × α) :=
  if d.any (fun p => p.1 == k) then
    d.map (fun p => if p.1 == k then (k, v) else p)
  else d ++ [(k, v)]

/-- Python truthiness of `Optional[str]`: `None` and `""` are falsy. -/
def truthy : Option String → Bool
  | none => false
  | some s => s != ""

/-- `MedicalArticle` (pydantic model of `app.py`). -/
structure MedicalArticle where
  title : String
  journal : String
  url : String
  date : String
  authors : Option String
deriving DecidableEq

/-- `MedicalBlogPost` (pydantic model of `app.py`). -/
structure MedicalBlogPost where
  content : String
  word_count : Nat
  sources : List MedicalArticle
deriving DecidableEq

/-- The `content` attribute of a search `RunResponse`: either a string or
some non-string Python value. -/
inductive RespContent where
  | str (s : String)
  | nonStr
deriving DecidableEq

/-- A search-agent `RunResponse`, reduced to its `content` attribute. -/
structure Response where
  content : RespContent
deriving DecidableEq

/-- A raised Python exception, identified by its message. -/
structure PyErr where
  msg : String
deriving DecidableEq

/-- The recognised keys of `_parse_search_results`. -/
def recognizedKeys : List String := ["title", "authors", "journal", "date", "url"]

/-- One loop iteration of `_parse_search_results` over a line: strip the
line, require a `:`, split on the first `:`, strip both sides, lower-case
the key; yields the key/value pair when the line has a colon. -/
def lineKV (line : String) : Option (String × String) :=
  let l := pyStrip line
  if l.data.any (fun c => c == ':') then
    let kv := splitFirstColon l
    some (pyLower (pyStrip kv.1), pyStrip kv.2)
  else none

/-- The `article_data[key.lower()] = value` update: store the pair only
when the key is recognised. -/
def stepLine (d : List (String × String)) (line : String) :
    List (String × String) :=
  match lineKV line with
  | some kv => if recognizedKeys.contains kv.1 then dictPut d kv.1 kv.2 else d
  | none => d

/-- The `article_data` dictionary accumulated over the lines of a block. -/
def blockDict (lines : List String) : List (String × String) :=
  lines.foldl stepLine []

/-- `_parse_search_results`, body of the per-section loop: strip the
section, skip it when empty, build `article_data`, and construct a
`MedicalArticle` exactly when both `title` and `url` are truthy, with
the source's defaults for `journal` and `date`. -/
def parseSection (today : String) (sec : String) : Option MedicalArticle :=
  let s := pyStrip sec
  if s == "" then none
  else
    let d := blockDict (pySplitNl s)
    if truthy (dictGet d "title") && truthy (dictGet d "url") then
      some { title := (dictGet d "title").getD ""
             journal := (dictGet d "journal").getD "Medical Journal"
             url := (dictGet d "url").getD ""
             date := (dictGet d "date").getD today
             authors := dictGet d "authors" }
    else none

/-- `_parse_search_results` on a string content: split on `'---'` and
collect the articles of each section in order. -/
def parseSearchResultsStr (today : String) (text : String) :
    List MedicalArticle :=
  (pySplitDashes text).filterMap (parseSection today)

/-- `_parse_search_results` on a full response: the `isinstance(response.content, str)`
guard returns the empty list for non-string content. -/
def parseSearchResults (today : String) (r : Response) : List MedicalArticle :=
  match r.content with
  | .str s => parseSearchResultsStr today s
  | .nonStr => []

/-- `_get_fallback_articles`. -/
def fallbackArticles (today topic : String) : List MedicalArticle :=
  [{ title := "Current Management of " ++ topic
     journal := "UpToDate"
     url := "https://www.uptodate.com"
     date := today
     authors := some "Medical Faculty" },
   { title := "Clinical Practice Guidelines for " ++ topic
     journal := "PubMed Central"
     url := "https://www.ncbi.nlm.nih.gov/pmc"
     date := today
     authors := some "Medical Associations" }]

/-- The two external collaborators, as oracles indexed by the number of
calls already issued to them: `search n` is the outcome of the `n`-th
`search_agent.run` call and `generate n` of the `n`-th
`content_agent.run` call.  An `error` models a raised exception; an
`ok` result of `generate` is the response's `content` string. -/
structure Collaborators where
  search : Nat → Except PyErr Response
  generate : Nat → Except PyErr String

/-- The mutable state threaded through the workflow: the topic cache
`session_state["medical_blog_posts"]` and the call counters of the two
collaborators. -/
structure WState where
  cache : List (String × MedicalBlogPost)
  searchCalls : Nat
  genCalls : Nat
deriving DecidableEq

/-- `fetch_recent_articles`: primary search, broadened retry when the
parsed list is empty, truncation to the first three articles, and the
unconditional catch-all returning the fallback articles when either
collaborator call raises. -/
def fetchRecentArticles (C : Collaborators) (today topic : String)
    (s : WState) : WState × List MedicalArticle :=
  match C.search s.searchCalls with
  | .error _ => ({ s with searchCalls := s.searchCalls + 1 },
                 fallbackArticles today topic)
  | .ok r =>
    let articles := parseSearchResults today r
    if articles.isEmpty then
      match C.search (s.searchCalls + 1) with
      | .error _ => ({ s with searchCalls := s.searchCalls + 2 },
                     fallbackArticles today topic)
      | .ok r2 =>
        let articles2 := parseSearchResults today r2
        ({ s with searchCalls := s.searchCalls + 2 },
         if articles2.isEmpty then fallbackArticles today topic
         else articles2.take 3)
    else ({ s with searchCalls := s.searchCalls + 1 }, articles.take 3)

/-- The heading prepend of `generate_blog_post`: when the generated
content does not start with `'# '`, prefix the synthesized
`# Latest Evidence: {topic}` heading. -/
def withHeading (topic body : String) : String :=
  if pyStartsWith body "# " then body
  else "# Latest Evidence: " ++ topic ++ "\n\n" ++ body

/-- `generate_blog_post`: one `content_agent.run` call, whose raised
exception propagates (`error`), and otherwise a `MedicalBlogPost` whose
`content` is the stripped, heading-prepended prose, whose `word_count`
is `len(content.split())`, and whose `sources` are the given articles. -/
def generateBlogPost (C : Collaborators) (topic : String)
    (articles : List MedicalArticle) (s : WState) :
    WState × Except PyErr MedicalBlogPost :=
  let s1 : WState := { s with genCalls := s.genCalls + 1 }
  match C.generate s.genCalls with
  | .error e => (s1, .error e)
  | .ok raw =>
    let content := withHeading topic (pyStrip raw)
    (s1, .ok { content := content
               word_count := (pySplitWs content).length
               sources := articles })

/-- One reference line `- {journal}: [{title}]({url})` of the final
document. -/
def refLine (a : MedicalArticle) : String :=
  "- " ++ a.journal ++ ": [" ++ a.title ++ "](" ++ a.url ++ ")"

/-- The `final_post` f-string of `run`: the post's content, the
References section joined with `chr(10)`, and the word-count/date
footer. -/
def finalPost (today : String) (post : MedicalBlogPost) : String :=
  post.content ++ "\n\n---\n### 📚 References\n"
    ++ pyJoin "\n" (post.sources.map refLine)
    ++ "\n\n---\n*Word count: " ++ toString post.word_count
    ++ "*  \nGenerated: " ++ today ++ "\n"

/-- The cache-miss path of `run`: fetch articles, generate the post
(a generation exception propagates with the cache untouched), cache the
post, and yield the assembled `final_post`. -/
def runFresh (C : Collaborators) (today topic : String) (s : WState) :
    WState × Except PyErr String :=
  let fr := fetchRecentArticles C today topic s
  match generateBlogPost C topic fr.2 fr.1 with
  | (s2, .error e) => (s2, .error e)
  | (s2, .ok post) =>
    ({ s2 with cache := dictPut s2.cache topic post },
     .ok (finalPost today post))

/-- `run(use_cache)`: on a cache hit (when requested) yield the cached
post's `content` unchanged and stop; otherwise run the fresh path. -/
def run (C : Collaborators) (today topic : String) (useCache : Bool)
    (s : WState) : WState × Except PyErr String :=
  if useCache then
    match dictGet s.cache topic with
    | some post => (s, .ok post.content)
    | none => runFresh C today topic s
  else runFresh C today topic s

/-- The initial state: empty cache, no collaborator calls issued. -/
def initState : WState := { cache := [], searchCalls := 0, genCalls := 0 }

/-!
Spec-side formulation of the parser (§4.1 of the specification), written
from the specification's words: the value of a key in a block is the
value of the *last* line of the block assigning that key ("later
duplicate keys in the same block overwrite earlier ones"); an article is
produced exactly when `title` and `url` are non-empty, with the fixed
defaults otherwise; output order is block order with no deduplication.
-/

/-- The value of the last line of `lines` whose (trimmed, lower-cased)
key equals `k`, if any — the spec's "later duplicate keys overwrite
earlier ones". -/
def lastAssign (k : String) : List String → Option String
  | [] => none
  | line :: rest =>
    match lastAssign k rest with
    | some v => some v
    | none =>
      match lineKV line with
      | some kv => if kv.1 == k then some kv.2 else none
      | none => none

/-- Spec-side reading of one block: split into lines, take the last
assignment of each recognised key, keep the block only when `title` and
`url` are both non-empty, and apply the documented defaults. -/
def specParseBlock (today : String) (block : String) : Option MedicalArticle :=
  let lines := pySplitNl (pyStrip block)
  match lastAssign "title" lines, lastAssign "url" lines with
  | some t, some u =>
    if t != "" && u != "" then
      some { title := t
             journal := (lastAssign "journal" lines).getD "Medical Journal"
             url := u
             date := (lastAssign "date" lines).getD today
             authors := lastAssign "authors" lines }
    else none
  | _, _ => none

/-- Spec-side parser: blocks in input order, one optional article per
block, no deduplication. -/
def specParse (today raw : String) : List MedicalArticle :=
  (pySplitDashes raw).filterMap (specParseBlock today)

/-! Dictionary lemmas relating the fold of `_parse_search_results` to
the spec-side last-assignment semantics. -/

theorem dictGet_cons_pos {α : Type} (p : String × α) (d : List (String × α))
    (k : String) (h : (p.1 == k) = true) : dictGet (p :: d) k = some p.2 := by
  unfold dictGet
  rw [@List.find?_cons_of_pos _ (fun q => q.1 == k) p d h]
  rfl

theorem dictGet_cons_neg {α : Type} (p : String × α) (d : List (String × α))
    (k : String) (h : (p.1 == k) = false) : dictGet (p :: d) k = dictGet d k := by
  unfold dictGet
  rw [@List.find?_cons_of_neg _ (fun q => q.1 == k) p d (by simp [h])]

theorem dictGet_append_single {α : Type} (d : List (String × α))
    (k k' : String) (v : α) :
    dictGet (d ++ [(k', v)]) k =
      match dictGet d k with
      | some w => some w
      | none => if k' == k then some v else none := by
  induction d with
  | nil =>
    simp only [List.nil_append]
    cases h : (k' : String) == k
    · rw [dictGet_cons_neg _ _ _ h]
      simp [dictGet, h]
    · rw [dictGet_cons_pos _ _ _ h]
      simp [dictGet, h]
  | cons p d ih =>
    cases hp : p.1 == k
    · rw [List.cons_append, dictGet_cons_neg _ _ _ hp, dictGet_cons_neg _ _ _ hp]
      exact ih
    · rw [List.cons_append, dictGet_cons_pos _ _ _ hp, dictGet_cons_pos _ _ _ hp]

theorem dictGet_map_replace {α : Type} (d : List (String × α))
    (k k' : String) (v : α) :
    dictGet (d.map (fun p => if p.1 == k' then (k', v) else p)) k =
      (dictGet d k).map (fun w => if k == k' then v else w) := by
  induction d with
  | nil => rfl
  | cons p d ih =>
    simp only [List.map_cons]
    by_cases hp' : p.1 = k'
    · have hhead : (if (p.1 == k') = true then (k', v) else p) = (k', v) := by
        rw [hp']
        simp
      rw [hhead]
      by_cases hk : k = k'
      · have h1 : (k' == k) = true := by rw [hk]; exact beq_self_eq_true k'
        have h2 : (p.1 == k) = true := by rw [hp', hk]; exact beq_self_eq_true k'
        have h3 : (k == k') = true := by rw [hk]; exact beq_self_eq_true k'
        rw [dictGet_cons_pos _ _ _ h1, dictGet_cons_pos _ _ _ h2]
        simp [h3]
      · have h1 : (k' == k) = false := beq_eq_false_iff_ne.2 (Ne.symm hk)
        have h2 : (p.1 == k) = false := by rw [hp']; exact h1
        rw [dictGet_cons_neg _ _ _ h1, dictGet_cons_neg _ _ _ h2]
        exact ih
    · have hp'' : (p.1 == k') = false := beq_eq_false_iff_ne.2 hp'
      have hhead : (if (p.1 == k') = true then (k', v) else p) = p := by
        rw [hp'']
        simp
      rw [hhead]
      by_cases hpk : p.1 = k
      · have hkk : (k == k') = false :=
          beq_eq_false_iff_ne.2 (by rw [← hpk]; exact hp')
        have hppos : (p.1 == k) = true := by rw [hpk]; exact beq_self_eq_true k
        rw [dictGet_cons_pos _ _ _ hppos, dictGet_cons_pos _ _ _ hppos]
        simp [hkk]
      · have h2 : (p.1 == k) = false := beq_eq_false_iff_ne.2 hpk
        rw [dictGet_cons_neg _ _ _ h2, dictGet_cons_neg _ _ _ h2]
        exact ih

theorem dictGet_isSome_of_any {α : Type} (d : List (String × α)) (k : String)
    (h : d.any (fun p => p.1 == k) = true) : (dictGet d k).isSome := by
  induction d with
  | nil => simp at h
  | cons p d ih =>
    cases hp : p.1 == k
    · rw [dictGet_cons_neg _ _ _ hp]
      simp only [List.any_cons, hp, Bool.false_or] at h
      exact ih h
    · rw [dictGet_cons_pos _ _ _ hp]
      rfl

theorem dictGet_eq_none_of_not_any {α : Type} (d : List (String × α))
    (k : String) (h : d.any (fun p => p.1 == k) = false) :
    dictGet d k = none := by
  induction d with
  | nil => rfl
  | cons p d ih =>
    simp only [List.any_cons, Bool.or_eq_false_iff] at h
    rw [dictGet_cons_neg _ _ _ h.1]
    exact ih h.2

theorem dictGet_dictPut_self {α : Type} (d : List (String × α)) (k : String)
    (v : α) : dictGet (dictPut d k v) k = some v := by
  unfold dictPut
  cases h : d.any (fun p => p.1 == k)
  · simp only [Bool.false_eq_true, if_false]
    rw [dictGet_append_single, dictGet_eq_none_of_not_any d k h]
    simp
  · simp only [if_true]
    rw [dictGet_map_replace]
    have hs := dictGet_isSome_of_any d k h
    cases hd : dictGet d k
    · rw [hd] at hs
      simp at hs
    · simp

theorem dictGet_dictPut_ne {α : Type} (d : List (String × α)) (k k' : String)
    (v : α) (hne : k ≠ k') : dictGet (dictPut d k' v) k = dictGet d k := by
  unfold dictPut
  cases h : d.any (fun p => p.1 == k')
  · simp only [Bool.false_eq_true, if_false]
    rw [dictGet_append_single]
    have hkk : (k' == k) = false := beq_eq_false_iff_ne.2 (Ne.symm hne)
    cases hd : dictGet d k <;> simp [hkk]
  · simp only [if_true]
    rw [dictGet_map_replace]
    have hkk : (k == k') = false := beq_eq_false_iff_ne.2 hne
    cases hd : dictGet d k <;> simp [hkk]

/-- The dictionary accumulated by `_parse_search_results` over the lines
of a block agrees, on every recognised key, with the spec-side
last-assignment semantics. -/
theorem foldl_stepLine_get (k : String) (hk : recognizedKeys.contains k = true) :
    ∀ (lines : List String) (d : List (String × String)),
    dictGet (lines.foldl stepLine d) k =
      match lastAssign k lines with
      | some v => some v
      | none => dictGet d k := by
  intro lines
  induction lines with
  | nil => intro d; rfl
  | cons line ls ih =>
    intro d
    simp only [List.foldl_cons]
    rw [ih]
    cases hls : lastAssign k ls with
    | some v => simp [lastAssign, hls]
    | none =>
      cases hkv : lineKV line with
      | none => simp [lastAssign, hls, hkv, stepLine]
      | some kv =>
        cases hbeq : kv.1 == k
        · simp only [stepLine, hkv]
          by_cases hrec : recognizedKeys.contains kv.1
          · simp only [hrec, if_true]
            rw [dictGet_dictPut_ne _ _ _ _
              (fun he => by simp [he] at hbeq)]
            simp [lastAssign, hls, hkv, hbeq]
          · simp only [hrec, if_false]
            simp [lastAssign, hls, hkv, hbeq]
        · have hkv1 : kv.1 = k := beq_iff_eq.1 hbeq
          simp only [stepLine, hkv, hkv1, hk, if_true]
          rw [dictGet_dictPut_self]
          simp [lastAssign, hls, hkv, hbeq]

/-- On a recognised key, the block dictionary is exactly the last
assignment of the block's lines. -/
theorem blockDict_get (k : String) (hk : recognizedKeys.contains k = true)
    (lines : List String) : dictGet (blockDict lines) k = lastAssign k lines := by
  unfold blockDict
  rw [foldl_stepLine_get k hk lines []]
  cases h : lastAssign k lines <;> rfl

/-- Per-block refinement: the code's section parser agrees with the
spec-side block reading. -/
theorem parseSection_eq_specParseBlock (today sec : String) :
    parseSection today sec = specParseBlock today sec := by
  unfold parseSection specParseBlock
  cases hs : pyStrip sec == ""
  · simp only [hs, Bool.false_eq_true, if_false]
    rw [blockDict_get "title" (by decide), blockDict_get "url" (by decide),
        blockDict_get "journal" (by decide), blockDict_get "date" (by decide),
        blockDict_get "authors" (by decide)]
    cases ht : lastAssign "title" (pySplitNl (pyStrip sec)) with
    | none => simp [truthy]
    | some t =>
      cases hu : lastAssign "url" (pySplitNl (pyStrip sec)) with
      | none => simp [truthy]
      | some u => simp [truthy]
  · have h0 : pyStrip sec = "" := beq_iff_eq.1 hs
    rw [h0]
    rfl

/-- C5.  For every input string, the parser splits on the literal `---`,
splits each line on the first `:` only (values may contain further
colons), trims both sides, keeps only the keys
title/authors/journal/date/url case-insensitively, lets a later
duplicate key in a block overwrite an earlier one, and returns the
articles in input block order with no deduplication — i.e. the code's
parser coincides with the spec-side formulation built from
last-assignment lookups over the same blocks. -/
theorem c5_parse_refines_spec (today raw : String) :
    parseSearchResultsStr today raw = specParse today raw := by
  unfold parseSearchResultsStr specParse
  exact List.filterMap_congr (fun sec _ => parseSection_eq_specParseBlock today sec)

/-- C6.  Every article produced by the parser has a non-empty title and
a non-empty url; a block missing either contributes nothing and raises
no error (the parser is a total function into lists). -/
theorem c6_articles_title_url_nonempty (today raw : String)
    (a : MedicalArticle) (ha : a ∈ parseSearchResultsStr today raw) :
    a.title ≠ "" ∧ a.url ≠ "" := by
  unfold parseSearchResultsStr at ha
  rw [List.mem_filterMap] at ha
  obtain ⟨sec, _, hsec⟩ := ha
  rw [parseSection_eq_specParseBlock] at hsec
  unfold specParseBlock at hsec
  dsimp only at hsec
  cases ht : lastAssign "title" (pySplitNl (pyStrip sec)) with
  | none => rw [ht] at hsec; exact absurd hsec (by simp)
  | some t =>
    cases hu : lastAssign "url" (pySplitNl (pyStrip sec)) with
    | none => rw [ht, hu] at hsec; exact absurd hsec (by simp)
    | some u =>
      rw [ht, hu] at hsec
      dsimp only at hsec
      cases hne : (t != "") && (u != "") with
      | false => rw [hne] at hsec; exact absurd hsec (by simp)
      | true =>
        rw [hne] at hsec
        simp only [if_true] at hsec
        obtain ⟨hne1, hne2⟩ := Bool.and_eq_true_iff.1 hne
        cases hsec
        exact ⟨by simpa using hne1, by simpa using hne2⟩

/-- C6 witness. -/
theorem c6_witness :
    (⟨"A", "Medical Journal", "u", "D", none⟩ : MedicalArticle) ∈
      parseSearchResultsStr "D" "Title: A\nURL: u" ∧
    ("A" : String) ≠ "" ∧ ("u" : String) ≠ "" := by
  refine ⟨by decide, ?_⟩
  exact c6_articles_title_url_nonempty "D" "Title: A\nURL: u"
    ⟨"A", "Medical Journal", "u", "D", none⟩ (by decide)

/-- C7.  For a block that yields an article: a missing journal key gives
the fixed generic label `"Medical Journal"`, a missing date key gives
the current date string, and a missing authors key gives an absent
authors value. -/
theorem c7_missing_key_defaults (today sec : String) (a : MedicalArticle)
    (h : parseSection today sec = some a) :
    (lastAssign "journal" (pySplitNl (pyStrip sec)) = none →
       a.journal = "Medical Journal") ∧
    (lastAssign "date" (pySplitNl (pyStrip sec)) = none → a.date = today) ∧
    (lastAssign "authors" (pySplitNl (pyStrip sec)) = none →
       a.authors = none) := by
  rw [parseSection_eq_specParseBlock] at h
  unfold specParseBlock at h
  dsimp only at h
  cases ht : lastAssign "title" (pySplitNl (pyStrip sec)) with
  | none => rw [ht] at h; exact absurd h (by simp)
  | some t =>
    cases hu : lastAssign "url" (pySplitNl (pyStrip sec)) with
    | none => rw [ht, hu] at h; exact absurd h (by simp)
    | some u =>
      rw [ht, hu] at h
      dsimp only at h
      cases hne : (t != "") && (u != "") with
      | false => rw [hne] at h; exact absurd h (by simp)
      | true =>
        rw [hne] at h
        simp only [if_true] at h
        cases h
        refine ⟨fun hj => ?_, fun hd => ?_, fun hau => ?_⟩
        · simp [hj]
        · simp [hd]
        · simp [hau]

/-- C7 witness. -/
theorem c7_witness :
    parseSection "2026-10-12" "Title: A\nURL: u" =
      some ⟨"A", "Medical Journal", "u", "2026-10-12", none⟩ ∧
    (⟨"A", "Medical Journal", "u", "2026-10-12", none⟩ :
      MedicalArticle).journal = "Medical Journal" ∧
    (⟨"A", "Medical Journal", "u", "2026-10-12", none⟩ :
      MedicalArticle).date = "2026-10-12" ∧
    (⟨"A", "Medical Journal", "u", "2026-10-12", none⟩ :
      MedicalArticle).authors = none := by
  have h : parseSection "2026-10-12" "Title: A\nURL: u" =
      some ⟨"A", "Medical Journal", "u", "2026-10-12", none⟩ := by decide
  have hc := c7_missing_key_defaults "2026-10-12" "Title: A\nURL: u" _ h
  exact ⟨h, hc.1 (by decide), hc.2.1 (by decide), hc.2.2 (by decide)⟩

/-- C3.  Any exception of the search collaborator during fetching — in
the primary call, or in the broadened retry issued when the primary
parse is empty — is caught inside `fetch_recent_articles`, which then
returns exactly the two fallback articles for the topic; no search-phase
error reaches the caller (the function is total into article lists). -/
theorem c3_search_exception_fallback (C : Collaborators)
    (today topic : String) (s : WState) (e : PyErr)
    (h : C.search s.searchCalls = .error e ∨
         (∃ r, C.search s.searchCalls = .ok r ∧
            parseSearchResults today r = [] ∧
            C.search (s.searchCalls + 1) = .error e)) :
    (fetchRecentArticles C today topic s).2 = fallbackArticles today topic := by
  rcases h with h | ⟨r, hr, hp, h2⟩
  · simp [fetchRecentArticles, h]
  · simp [fetchRecentArticles, hr, hp, h2]

/-- C3 witness. -/
theorem c3_witness :
    (fetchRecentArticles
      ⟨fun _ => .error ⟨"boom"⟩, fun _ => .ok ""⟩ "D" "Sepsis" initState).2 =
      fallbackArticles "D" "Sepsis" := by
  exact c3_search_exception_fallback
    ⟨fun _ => .error ⟨"boom"⟩, fun _ => .ok ""⟩ "D" "Sepsis" initState
    ⟨"boom"⟩ (Or.inl rfl)

/-- C8.  When the primary search parses to a non-empty list, exactly its
first `min 3 length` articles are kept, in order; likewise for the
broadened search when the primary parse is empty; when both parses are
empty, the result is the fallback provider's output, which has exactly
two elements and is used without truncation. -/
theorem c8_truncation_and_fallback (C : Collaborators)
    (today topic : String) (s : WState) :
    (∀ r, C.search s.searchCalls = .ok r →
       parseSearchResults today r ≠ [] →
       (fetchRecentArticles C today topic s).2 =
         (parseSearchResults today r).take 3 ∧
       (fetchRecentArticles C today topic s).2.length =
         min 3 (parseSearchResults today r).length) ∧
    (∀ r r2, C.search s.searchCalls = .ok r →
       parseSearchResults today r = [] →
       C.search (s.searchCalls + 1) = .ok r2 →
       parseSearchResults today r2 ≠ [] →
       (fetchRecentArticles C today topic s).2 =
         (parseSearchResults today r2).take 3 ∧
       (fetchRecentArticles C today topic s).2.length =
         min 3 (parseSearchResults today r2).length) ∧
    (∀ r r2, C.search s.searchCalls = .ok r →
       parseSearchResults today r = [] →
       C.search (s.searchCalls + 1) = .ok r2 →
       parseSearchResults today r2 = [] →
       (fetchRecentArticles C today topic s).2 =
         fallbackArticles today topic) ∧
    (fallbackArticles today topic).length = 2 := by
  refine ⟨?_, ?_, ?_, rfl⟩
  · intro r hr hne
    have hie : (parseSearchResults today r).isEmpty = false := by
      cases hl : parseSearchResults today r
      · exact absurd hl hne
      · rfl
    have hres : (fetchRecentArticles C today topic s).2 =
        (parseSearchResults today r).take 3 := by
      simp [fetchRecentArticles, hr, hie]
    exact ⟨hres, by rw [hres, List.length_take]⟩
  · intro r r2 hr hp hr2 hne
    have hie : (parseSearchResults today r2).isEmpty = false := by
      cases hl : parseSearchResults today r2
      · exact absurd hl hne
      · rfl
    have hres : (fetchRecentArticles C today topic s).2 =
        (parseSearchResults today r2).take 3 := by
      simp [fetchRecentArticles, hr, hp, hr2, hie]
    exact ⟨hres, by rw [hres, List.length_take]⟩
  · intro r r2 hr hp hr2 hp2
    simp [fetchRecentArticles, hr, hp, hr2, hp2]

/-- C8 witness: a five-article primary response is truncated to its
first three, and a doubly empty search path yields the two fallback
articles untruncated. -/
theorem c8_witness :
    (fetchRecentArticles
      ⟨fun _ => .ok ⟨.str "Title: T1\nURL: u1\n---\nTitle: T2\nURL: u2\n---\nTitle: T3\nURL: u3\n---\nTitle: T4\nURL: u4\n---\nTitle: T5\nURL: u5"⟩,
       fun _ => .ok ""⟩ "D" "Sepsis" initState).2 =
      [⟨"T1", "Medical Journal", "u1", "D", none⟩,
       ⟨"T2", "Medical Journal", "u2", "D", none⟩,
       ⟨"T3", "Medical Journal", "u3", "D", none⟩] ∧
    (fetchRecentArticles
      ⟨fun _ => .ok ⟨.str ""⟩, fun _ => .ok ""⟩ "D" "Sepsis" initState).2 =
      fallbackArticles "D" "Sepsis" ∧
    (fallbackArticles "D" "Sepsis").length = 2 := by
  have h1 := (c8_truncation_and_fallback
    ⟨fun _ => .ok ⟨.str "Title: T1\nURL: u1\n---\nTitle: T2\nURL: u2\n---\nTitle: T3\nURL: u3\n---\nTitle: T4\nURL: u4\n---\nTitle: T5\nURL: u5"⟩,
     fun _ => .ok ""⟩ "D" "Sepsis" initState).1
    ⟨.str "Title: T1\nURL: u1\n---\nTitle: T2\nURL: u2\n---\nTitle: T3\nURL: u3\n---\nTitle: T4\nURL: u4\n---\nTitle: T5\nURL: u5"⟩
    rfl (by decide)
  have h2 := (c8_truncation_and_fallback
    ⟨fun _ => .ok ⟨.str ""⟩, fun _ => .ok ""⟩ "D" "Sepsis" initState).2.2.1
    ⟨.str ""⟩ ⟨.str ""⟩ rfl (by decide) rfl (by decide)
  refine ⟨?_, h2, rfl⟩
  rw [h1.1]
  decide

/-- C10.  A search response whose `content` is not a string parses to
the empty article list without any exception; when the primary response
has non-string content the orchestrator proceeds to the broadened
search (a second collaborator call is issued), and when that one also
has non-string content the article list is the fallback pair. -/
theorem c10_nonstring_content_safe (C : Collaborators)
    (today topic : String) (s : WState)
    (h1 : C.search s.searchCalls = .ok ⟨.nonStr⟩)
    (h2 : C.search (s.searchCalls + 1) = .ok ⟨.nonStr⟩) :
    parseSearchResults today ⟨.nonStr⟩ = [] ∧
    (fetchRecentArticles C today topic s).2 = fallbackArticles today topic ∧
    (fetchRecentArticles C today topic s).1.searchCalls =
      s.searchCalls + 2 := by
  refine ⟨rfl, ?_, ?_⟩ <;>
    simp [fetchRecentArticles, h1, h2, parseSearchResults]

/-- C10 witness. -/
theorem c10_witness :
    (fetchRecentArticles ⟨fun _ => .ok ⟨.nonStr⟩, fun _ => .ok ""⟩
        "D" "Sepsis" initState).2 = fallbackArticles "D" "Sepsis" ∧
    (fetchRecentArticles ⟨fun _ => .ok ⟨.nonStr⟩, fun _ => .ok ""⟩
        "D" "Sepsis" initState).1.searchCalls = 2 := by
  have h := c10_nonstring_content_safe
    ⟨fun _ => .ok ⟨.nonStr⟩, fun _ => .ok ""⟩ "D" "Sepsis" initState rfl rfl
  exact ⟨h.2.1, h.2.2⟩

/-- `fetch_recent_articles` touches neither the cache nor the
generation-call counter, and issues one or two search calls. -/
theorem fetch_state (C : Collaborators) (today topic : String) (s : WState) :
    (fetchRecentArticles C today topic s).1.cache = s.cache ∧
    (fetchRecentArticles C today topic s).1.genCalls = s.genCalls ∧
    ((fetchRecentArticles C today topic s).1.searchCalls = s.searchCalls + 1 ∨
     (fetchRecentArticles C today topic s).1.searchCalls = s.searchCalls + 2) := by
  unfold fetchRecentArticles
  cases C.search s.searchCalls with
  | error e => exact ⟨rfl, rfl, Or.inl rfl⟩
  | ok r =>
    dsimp only
    cases (parseSearchResults today r).isEmpty with
    | false => exact ⟨rfl, rfl, Or.inl rfl⟩
    | true =>
      cases C.search (s.searchCalls + 1) with
      | error e => exact ⟨rfl, rfl, Or.inr rfl⟩
      | ok r2 => exact ⟨rfl, rfl, Or.inr rfl⟩

/-- Shape of the fresh path when the generation collaborator raises: the
error is returned and the state is the post-fetch state with only the
generation counter advanced. -/
theorem runFresh_error (C : Collaborators) (today topic : String)
    (s : WState) (e : PyErr)
    (hg : C.generate (fetchRecentArticles C today topic s).1.genCalls =
            .error e) :
    runFresh C today topic s =
      ({ cache := (fetchRecentArticles C today topic s).1.cache
         searchCalls := (fetchRecentArticles C today topic s).1.searchCalls
         genCalls := (fetchRecentArticles C today topic s).1.genCalls + 1 },
       .error e) := by
  unfold runFresh generateBlogPost
  dsimp only
  rw [hg]

/-- Shape of the fresh path when the generation collaborator succeeds
with prose `raw`: the composed post is cached under the topic and the
assembled `final_post` document is yielded. -/
theorem runFresh_ok (C : Collaborators) (today topic : String)
    (s : WState) (raw : String)
    (hg : C.generate (fetchRecentArticles C today topic s).1.genCalls =
            .ok raw) :
    runFresh C today topic s =
      ({ cache := dictPut (fetchRecentArticles C today topic s).1.cache topic
                    ⟨withHeading topic (pyStrip raw),
                     (pySplitWs (withHeading topic (pyStrip raw))).length,
                     (fetchRecentArticles C today topic s).2⟩
         searchCalls := (fetchRecentArticles C today topic s).1.searchCalls
         genCalls := (fetchRecentArticles C today topic s).1.genCalls + 1 },
       .ok (finalPost today
             ⟨withHeading topic (pyStrip raw),
              (pySplitWs (withHeading topic (pyStrip raw))).length,
              (fetchRecentArticles C today topic s).2⟩)) := by
  unfold runFresh generateBlogPost
  dsimp only
  rw [hg]

/-- C4.  If the generation collaborator raises, the exception propagates
unchanged out of `run`, and the topic cache is exactly as before the
run: no entry is written until generation fully succeeds. -/
theorem c4_generation_error_propagates (C : Collaborators)
    (today topic : String) (useCache : Bool) (s : WState) (e : PyErr)
    (hmiss : dictGet s.cache topic = none)
    (hgen : C.generate s.genCalls = .error e) :
    (run C today topic useCache s).2 = .error e ∧
    (run C today topic useCache s).1.cache = s.cache := by
  have hfs := fetch_state C today topic s
  have hrf := runFresh_error C today topic s e (by rw [hfs.2.1]; exact hgen)
  have hrun : run C today topic useCache s = runFresh C today topic s := by
    cases useCache with
    | false => rfl
    | true =>
      have hstep : run C today topic true s =
          match dictGet s.cache topic with
          | some post => (s, Except.ok post.content)
          | none => runFresh C today topic s := rfl
      rw [hstep, hmiss]
  rw [hrun, hrf]
  exact ⟨rfl, hfs.1⟩

/-- C4 witness. -/
theorem c4_witness :
    (run ⟨fun _ => .ok ⟨.str "Title: A\nURL: u"⟩, fun _ => .error ⟨"gen"⟩⟩
        "D" "Sepsis" true initState).2 = .error ⟨"gen"⟩ ∧
    (run ⟨fun _ => .ok ⟨.str "Title: A\nURL: u"⟩, fun _ => .error ⟨"gen"⟩⟩
        "D" "Sepsis" true initState).1.cache = initState.cache := by
  exact c4_generation_error_propagates
    ⟨fun _ => .ok ⟨.str "Title: A\nURL: u"⟩, fun _ => .error ⟨"gen"⟩⟩
    "D" "Sepsis" true initState ⟨"gen"⟩ rfl rfl

theorem string_eq_of_data (a b : String) (h : a.data = b.data) : a = b := by
  cases a
  cases b
  exact congrArg String.mk h

theorem string_data_append (a b : String) :
    (a ++ b).data = a.data ++ b.data := rfl

/-- Whitespace tokenisation distributes over concatenation at a newline
boundary: the tokens of `a ++ '\n' :: b` are the tokens of `a` (with the
pending partial token flushed) followed by the tokens of `b`. -/
theorem wsSplitAux_append_nl (b : List Char) :
    ∀ (a acc : List Char),
    wsSplitAux (a ++ '\n' :: b) acc = wsSplitAux a acc ++ wsSplitAux b [] := by
  intro a
  induction a with
  | nil =>
    intro acc
    cases hacc : acc.isEmpty <;> simp [wsSplitAux, hacc, isPyWs]
  | cons c a ih =>
    intro acc
    by_cases hc : isPyWs c = true
    · cases hacc : acc.isEmpty <;> simp [wsSplitAux, hc, hacc, ih]
    · have hc' : isPyWs c = false := by
        cases hq : isPyWs c
        · rfl
        · exact absurd hq hc
      simp [wsSplitAux, hc', ih]

/-- The references-plus-footer suffix that `run` appends after the
post's content (it begins with the second newline of the separating
blank line). -/
def refsFooter (today : String) (post : MedicalBlogPost) : String :=
  "\n---\n### 📚 References\n" ++ pyJoin "\n" (post.sources.map refLine)
    ++ "\n\n---\n*Word count: " ++ toString post.word_count
    ++ "*  \nGenerated: " ++ today ++ "\n"

/-- The assembled document is the post's content, a newline, and the
references/footer suffix. -/
theorem finalPost_decomp (today : String) (post : MedicalBlogPost) :
    finalPost today post = post.content ++ "\n" ++ refsFooter today post := by
  apply string_eq_of_data
  simp only [finalPost, refsFooter, string_data_append, List.append_assoc]
  rfl

/-- Python `split()` of a string, a newline, and a suffix is the
concatenation of the two token lists. -/
theorem pySplitWs_append_nl (a b : String) :
    pySplitWs (a ++ "\n" ++ b) = pySplitWs a ++ pySplitWs b := by
  unfold pySplitWs
  have h : (a ++ "\n" ++ b).data = a.data ++ '\n' :: b.data := by
    simp only [string_data_append, List.append_assoc]
    rfl
  rw [h]
  exact wsSplitAux_append_nl b.data a.data []

/-- C9.  The composed post's `word_count` is the whitespace-token count
of the body content after the heading prepend, computed at composition
time; the tokens of the references section and the trailing footer,
appended afterwards by `run`, are not counted: the assembled document's
token list is the body's tokens followed by the suffix's tokens. -/
theorem c9_word_count_body_only (C : Collaborators) (today topic : String)
    (articles : List MedicalArticle) (s : WState) (raw : String)
    (hg : C.generate s.genCalls = .ok raw) :
    ∃ post : MedicalBlogPost,
      (generateBlogPost C topic articles s).2 = .ok post ∧
      post.word_count = (pySplitWs post.content).length ∧
      post.content = withHeading topic (pyStrip raw) ∧
      pySplitWs (finalPost today post) =
        pySplitWs post.content ++ pySplitWs (refsFooter today post) ∧
      (pySplitWs (finalPost today post)).length =
        post.word_count + (pySplitWs (refsFooter today post)).length := by
  refine ⟨⟨withHeading topic (pyStrip raw),
           (pySplitWs (withHeading topic (pyStrip raw))).length, articles⟩,
         ?_, rfl, rfl, ?_, ?_⟩
  · unfold generateBlogPost
    dsimp only
    rw [hg]
  · rw [finalPost_decomp, pySplitWs_append_nl]
  · rw [finalPost_decomp, pySplitWs_append_nl, List.length_append]

/-- C9 witness. -/
theorem c9_witness :
    ∃ post : MedicalBlogPost,
      (generateBlogPost ⟨fun _ => .ok ⟨.str "Title: A\nURL: u"⟩, fun _ => .ok "# B"⟩
          "T" [⟨"A", "Medical Journal", "u", "D", none⟩] initState).2 =
        .ok post ∧
      post.word_count = (pySplitWs post.content).length ∧
      post.content = withHeading "T" (pyStrip "# B") ∧
      pySplitWs (finalPost "D" post) =
        pySplitWs post.content ++ pySplitWs (refsFooter "D" post) ∧
      (pySplitWs (finalPost "D" post)).length =
        post.word_count + (pySplitWs (refsFooter "D" post)).length :=
  c9_word_count_body_only
    ⟨fun _ => .ok ⟨.str "Title: A\nURL: u"⟩, fun _ => .ok "# B"⟩ "D" "T"
    [⟨"A", "Medical Journal", "u", "D", none⟩] initState "# B" rfl

/-- `run` with cache requested returns the cached post's `content`
unchanged, with no state change, when the topic has a cache entry. -/
theorem run_cache_hit (C : Collaborators) (today topic : String)
    (s : WState) (post : MedicalBlogPost)
    (h : dictGet s.cache topic = some post) :
    run C today topic true s = (s, .ok post.content) := by
  have h0 : run C today topic true s =
      match dictGet s.cache topic with
      | some post => (s, Except.ok post.content)
      | none => runFresh C today topic s := rfl
  rw [h0, h]

/-- C1 counterexample: the composed `MedicalBlogPost` of
`generate_blog_post` does *not* carry the fully assembled document in
`content`.  With generated prose `"# B"` and one source article, the
composed post's `content` is just `"# B"`, while the assembled document
(with References section and footer) is a different string. -/
theorem c1_counterexample :
    (generateBlogPost
        ⟨fun _ => .ok ⟨.str "Title: A\nURL: u"⟩, fun _ => .ok "# B"⟩
        "T" [⟨"A", "Medical Journal", "u", "D", none⟩] initState).2 =
      .ok ⟨"# B", 2, [⟨"A", "Medical Journal", "u", "D", none⟩]⟩ ∧
    (⟨"# B", 2, [⟨"A", "Medical Journal", "u", "D", none⟩]⟩ :
        MedicalBlogPost).content ≠
      finalPost "D" ⟨"# B", 2, [⟨"A", "Medical Journal", "u", "D", none⟩]⟩ := by
  exact ⟨rfl, by decide⟩

/-- C1 (amended).  On the fresh path, `run` *yields* the fully assembled
document — the post's content followed by the References section listing
each source as `- {journal}: [{title}]({url})` in `sources` order,
followed by the word-count/date footer — while the composed
`MedicalBlogPost` itself stores only the (heading-prepended) body in
`content`; the cached entry is that body-only post. -/
theorem c1_run_yields_assembled_document (C : Collaborators)
    (today topic : String) (raw : String)
    (hgen : C.generate (fetchRecentArticles C today topic initState).1.genCalls =
              .ok raw) :
    ∃ post : MedicalBlogPost,
      (run C today topic true initState).2 = .ok
        (post.content ++ "\n\n---\n### 📚 References\n"
          ++ pyJoin "\n" (post.sources.map refLine)
          ++ "\n\n---\n*Word count: " ++ toString post.word_count
          ++ "*  \nGenerated: " ++ today ++ "\n") ∧
      post.content = withHeading topic (pyStrip raw) ∧
      post.sources = (fetchRecentArticles C today topic initState).2 ∧
      dictGet (run C today topic true initState).1.cache topic = some post := by
  have hstep : run C today topic true initState =
      runFresh C today topic initState := rfl
  have hok := runFresh_ok C today topic initState raw hgen
  refine ⟨⟨withHeading topic (pyStrip raw),
           (pySplitWs (withHeading topic (pyStrip raw))).length,
           (fetchRecentArticles C today topic initState).2⟩, ?_, rfl, rfl, ?_⟩
  · rw [hstep, hok]
    rfl
  · rw [hstep, hok]
    exact dictGet_dictPut_self _ _ _

/-- C1 witness. -/
theorem c1_witness :
    ∃ post : MedicalBlogPost,
      (run ⟨fun _ => .ok ⟨.str "Title: A\nURL: u"⟩, fun _ => .ok "# B"⟩
          "D" "T" true initState).2 = .ok
        (post.content ++ "\n\n---\n### 📚 References\n"
          ++ pyJoin "\n" (post.sources.map refLine)
          ++ "\n\n---\n*Word count: " ++ toString post.word_count
          ++ "*  \nGenerated: " ++ "D" ++ "\n") ∧
      post.content = withHeading "T" (pyStrip "# B") ∧
      post.sources =
        (fetchRecentArticles
          ⟨fun _ => .ok ⟨.str "Title: A\nURL: u"⟩, fun _ => .ok "# B"⟩
          "D" "T" initState).2 ∧
      dictGet (run ⟨fun _ => .ok ⟨.str "Title: A\nURL: u"⟩, fun _ => .ok "# B"⟩
          "D" "T" true initState).1.cache "T" = some post :=
  c1_run_yields_assembled_document
    ⟨fun _ => .ok ⟨.str "Title: A\nURL: u"⟩, fun _ => .ok "# B"⟩
    "D" "T" "# B" rfl

/-- C2 counterexample: with cache enabled, two runs over the same topic
can invoke the search collaborator twice in total (the broadened retry
inside the first run), refuting "at most once in total"; both runs
succeed and the second is served from the cache. -/
theorem c2_counterexample :
    ((run ⟨fun n => if n = 0 then .ok ⟨.str ""⟩
                    else .ok ⟨.str "Title: A\nURL: u"⟩,
           fun _ => .ok "# B"⟩ "D" "T" true
        ((run ⟨fun n => if n = 0 then .ok ⟨.str ""⟩
                        else .ok ⟨.str "Title: A\nURL: u"⟩,
               fun _ => .ok "# B"⟩ "D" "T" true initState).1)).1.searchCalls
       = 2 ∧
     (run ⟨fun n => if n = 0 then .ok ⟨.str ""⟩
                    else .ok ⟨.str "Title: A\nURL: u"⟩,
           fun _ => .ok "# B"⟩ "D" "T" true initState).2 =
       .ok (finalPost "D"
              ⟨"# B", 2, [⟨"A", "Medical Journal", "u", "D", none⟩]⟩) ∧
     (run ⟨fun n => if n = 0 then .ok ⟨.str ""⟩
                    else .ok ⟨.str "Title: A\nURL: u"⟩,
           fun _ => .ok "# B"⟩ "D" "T" true
        ((run ⟨fun n => if n = 0 then .ok ⟨.str ""⟩
                        else .ok ⟨.str "Title: A\nURL: u"⟩,
               fun _ => .ok "# B"⟩ "D" "T" true initState).1)).2 =
       .ok "# B") ∧
    ¬ ((run ⟨fun n => if n = 0 then .ok ⟨.str ""⟩
                      else .ok ⟨.str "Title: A\nURL: u"⟩,
             fun _ => .ok "# B"⟩ "D" "T" true
          ((run ⟨fun n => if n = 0 then .ok ⟨.str ""⟩
                          else .ok ⟨.str "Title: A\nURL: u"⟩,
                 fun _ => .ok "# B"⟩ "D" "T" true initState).1)).1.searchCalls
         ≤ 1) := by
  exact ⟨⟨by decide, rfl, rfl⟩, by decide⟩

/-- C2 (amended).  For every topic, if the first cache-enabled run from
a fresh state succeeds, the second cache-enabled run finds the cache
entry and yields its stored `content` unchanged, performs no search, no
generation and no cache write (the state is exactly the state after the
first run); across both runs the generation collaborator is invoked at
most once and the search collaborator at most twice (the second call
only as the broadened retry inside the first run). -/
theorem c2_second_run_served_from_cache (C : Collaborators)
    (today topic : String)
    (h : ∃ o, (run C today topic true initState).2 = .ok o) :
    (run C today topic true (run C today topic true initState).1).1 =
      (run C today topic true initState).1 ∧
    (∃ post : MedicalBlogPost,
       dictGet (run C today topic true initState).1.cache topic = some post ∧
       (run C today topic true (run C today topic true initState).1).2 =
         .ok post.content) ∧
    (run C today topic true initState).1.genCalls ≤ 1 ∧
    (run C today topic true initState).1.searchCalls ≤ 2 := by
  obtain ⟨o, ho⟩ := h
  have hstep : run C today topic true initState =
      runFresh C today topic initState := rfl
  have hfs := fetch_state C today topic initState
  cases hg : C.generate (fetchRecentArticles C today topic initState).1.genCalls with
  | error e =>
    rw [hstep, runFresh_error C today topic initState e hg] at ho
    exact absurd ho (by simp)
  | ok raw =>
    have hok := runFresh_ok C today topic initState raw hg
    have hcache1 : dictGet (run C today topic true initState).1.cache topic =
        some ⟨withHeading topic (pyStrip raw),
              (pySplitWs (withHeading topic (pyStrip raw))).length,
              (fetchRecentArticles C today topic initState).2⟩ := by
      rw [hstep, hok]
      exact dictGet_dictPut_self _ _ _
    have hrun2 := run_cache_hit C today topic
      (run C today topic true initState).1 _ hcache1
    refine ⟨by rw [hrun2], ⟨_, hcache1, by rw [hrun2]⟩, ?_, ?_⟩
    · rw [hstep, hok]
      dsimp only
      rw [hfs.2.1]
      exact Nat.le_refl 1
    · rw [hstep, hok]
      dsimp only
      rcases hfs.2.2 with h2 | h2 <;> rw [h2] <;> decide

/-- C2 witness. -/
theorem c2_witness :
    (run ⟨fun _ => .ok ⟨.str "Title: A\nURL: u"⟩, fun _ => .ok "# B"⟩
        "D" "T" true
        ((run ⟨fun _ => .ok ⟨.str "Title: A\nURL: u"⟩, fun _ => .ok "# B"⟩
            "D" "T" true initState).1)).1 =
      (run ⟨fun _ => .ok ⟨.str "Title: A\nURL: u"⟩, fun _ => .ok "# B"⟩
          "D" "T" true initState).1 ∧
    (∃ post : MedicalBlogPost,
       dictGet (run ⟨fun _ => .ok ⟨.str "Title: A\nURL: u"⟩, fun _ => .ok "# B"⟩
           "D" "T" true initState).1.cache "T" = some post ∧
       (run ⟨fun _ => .ok ⟨.str "Title: A\nURL: u"⟩, fun _ => .ok "# B"⟩
           "D" "T" true
           ((run ⟨fun _ => .ok ⟨.str "Title: A\nURL: u"⟩, fun _ => .ok "# B"⟩
               "D" "T" true initState).1)).2 = .ok post.content) ∧
    (run ⟨fun _ => .ok ⟨.str "Title: A\nURL: u"⟩, fun _ => .ok "# B"⟩
        "D" "T" true initState).1.genCalls ≤ 1 ∧
    (run ⟨fun _ => .ok ⟨.str "Title: A\nURL: u"⟩, fun _ => .ok "# B"⟩
        "D" "T" true initState).1.searchCalls ≤ 2 :=
  c2_second_run_served_from_cache
    ⟨fun _ => .ok ⟨.str "Title: A\nURL: u"⟩, fun _ => .ok "# B"⟩ "D" "T"
    ⟨finalPost "D" ⟨"# B", 2, [⟨"A", "Medical Journal", "u", "D", none⟩]⟩, rfl⟩
